import Mathlib

/-!
Verification of the expflow status state-machine, iteration protocol, and
serialization/identity subsystem, shallowly embedded from
src/expflow/expflow.py.

Conventions of the embedding:
* timestamps are integers (the source uses wall-clock datetimes; only their
  ordering and differences matter to the logic);
* Python exceptions are values of an error type; an operation that can raise
  returns the mutated object together with an optional error, mirroring the
  fact that in the source the object keeps every mutation performed before
  the raise statement;
* the filesystem is a list of path strings; writing a file appends its path,
  unlinking removes it.
-/

namespace Expflow

/-! ### Statuses and the transition table (expflow.py lines 47-72) -/

/-- The keys of the statuses dictionary. -/
def statusNames : List String :=
  ["pending", "running", "paused", "timed_out", "finished", "skipped"]

/-- The transitions sets of the statuses dictionary; none for a string that
is not a key (looking such a string up in the source raises KeyError). -/
def transitionsOf : String → Option (List String)
  | "pending" => some ["running", "skipped"]
  | "running" => some ["finished", "timed_out", "paused"]
  | "paused" => some ["running"]
  | "timed_out" => some []
  | "finished" => some []
  | "skipped" => some []
  | _ => none

/-- Python exceptions raised by the embedded code. -/
inductive PyErr
  | valueError (msg : String)
  | keyError
  | typeError
  | stopIteration
  | indexError
  | participantExistsError
  | experimentExistsError
  | participantDoesNotExistError
  | wrongClassError
  | fileNotFoundError
deriving Repr, DecidableEq

/-! ### The status mixin state (expflow.py lines 688-862) -/

/-- The automatically managed fields of a status machine
(class StatusMixin in the source). -/
structure StatusState where
  current_status : String
  status_history : List (String × String × Int)
  datetime_started : Option Int
  datetime_finished : Option Int
  datetimes_paused : List (Int × Int)
  datetime_last_paused : Option Int
  duration : Option Int
deriving Repr, DecidableEq

/-- The field defaults of the status mixin: a fresh machine is pending with
empty histories and no timestamps. -/
def initialStatus : StatusState :=
  { current_status := "pending"
  , status_history := []
  , datetime_started := none
  , datetime_finished := none
  , datetimes_paused := []
  , datetime_last_paused := none
  , duration := none }

/-- Total length of the recorded pause intervals of a machine. -/
def pausedTotal (st : StatusState) : Int :=
  (st.datetimes_paused.map (fun p => p.2 - p.1)).sum

/-- Embeds get_duration (lines 848-862): none if datetime_finished is none,
otherwise finished minus started minus the summed pause lengths.  When
datetime_finished is set but datetime_started is not, the source raises
TypeError; that state is unreachable from a fresh machine, and the embedding
returns none there. -/
def get_duration (st : StatusState) : Option Int :=
  match st.datetime_finished with
  | none => none
  | some f =>
    match st.datetime_started with
    | none => none
    | some s => some ((f - s) - pausedTotal st)

/-- The mutations performed by the status setter (lines 820-846) once both
validation checks have passed: append to status_history, overwrite
current_status, then update the timestamp fields according to the
transition.  In the paused-to-running branch the source appends the pair
(datetime_last_paused, then_); datetime_last_paused is always set when the
machine is paused, and the embedding reads it with a default that is never
used on states reachable from a fresh machine. -/
def doStatusUpdate (st : StatusState) (new_status : String) (then_ : Int) :
    StatusState :=
  let old_status := st.current_status
  let st1 : StatusState :=
    { st with
      status_history := st.status_history ++ [(old_status, new_status, then_)]
    , current_status := new_status }
  if new_status = "running" then
    if old_status = "paused" then
      { st1 with
        datetimes_paused :=
          st1.datetimes_paused ++ [(st1.datetime_last_paused.getD 0, then_)] }
    else if old_status = "pending" then
      { st1 with datetime_started := some then_ }
    else
      st1
  else if new_status = "finished" ∨ new_status = "timed_out" then
    let st2 := { st1 with datetime_finished := some then_ }
    { st2 with duration := get_duration st2 }
  else if new_status = "paused" then
    { st1 with datetime_last_paused := some then_ }
  else
    st1

/-- Embeds the status setter (lines 802-846).  The argument then_ plays the
role of the single call to now() at the top of the setter; the source reads
the clock once and uses the same value for every update in the call.  Both
raise statements precede every mutation, so an error leaves the state
untouched. -/
def set_status (st : StatusState) (new_status : String) (then_ : Int) :
    Except PyErr StatusState :=
  if (transitionsOf new_status).isNone then
    .error (.valueError (new_status ++ " is not an acceptable status."))
  else
    match transitionsOf st.current_status with
    | none => .error .keyError
    | some ts =>
      if new_status ∉ ts then
        .error (.valueError
          ("Cannot switch from " ++ st.current_status
            ++ " to " ++ new_status ++ "."))
      else
        .ok (doStatusUpdate st new_status then_)

/-- Runs set_status the way a Python caller observes it: on an exception the
object keeps its previous state, because in the source both raise statements
precede every mutation. -/
def applyStatus (st : StatusState) (new_status : String) (then_ : Int) :
    StatusState :=
  match set_status st new_status then_ with
  | .ok st2 => st2
  | .error _ => st

/-- Runs a list of (requested status, timestamp) commands from a state,
keeping the previous state whenever a command raises. -/
def runTrace (st : StatusState) : List (String × Int) → StatusState
  | [] => st
  | (s, t) :: rest => runTrace (applyStatus st s t) rest

/-- Timestamps of a command list are nondecreasing and bounded below by the
first argument (the time of the last event already applied). -/
def TimesMono : Int → List (String × Int) → Prop
  | _, [] => True
  | t, (_, t1) :: rest => t ≤ t1 ∧ TimesMono t1 rest

/-- The transition table exactly as the specification states it:
pending to running or skipped, running to finished, timed_out or paused,
paused to running, nothing from the three terminal statuses, nothing from a
string outside the known status set. -/
def specTable : String → List String
  | "pending" => ["running", "skipped"]
  | "running" => ["finished", "timed_out", "paused"]
  | "paused" => ["running"]
  | _ => []

/-- Invariant of a status machine relative to an upper time bound t
(the timestamp of the last applied event): the bookkeeping fields are
consistent with the current status, and the accumulated pause time never
exceeds the elapsed time. -/
def Inv (st : StatusState) (t : Int) : Prop :=
  (st.current_status = "pending" ∧ st.datetime_started = none
     ∧ st.datetime_finished = none ∧ st.datetimes_paused = []
     ∧ st.duration = none)
  ∨ (st.current_status = "running" ∧ st.datetime_finished = none
     ∧ st.duration = none
     ∧ ∃ s, st.datetime_started = some s ∧ s + pausedTotal st ≤ t)
  ∨ (st.current_status = "paused" ∧ st.datetime_finished = none
     ∧ st.duration = none
     ∧ ∃ s p, st.datetime_started = some s ∧ st.datetime_last_paused = some p
        ∧ s + pausedTotal st ≤ p ∧ p ≤ t)
  ∨ ((st.current_status = "finished" ∨ st.current_status = "timed_out")
     ∧ ∃ s f, st.datetime_started = some s ∧ st.datetime_finished = some f
        ∧ st.duration = some ((f - s) - pausedTotal st)
        ∧ 0 ≤ (f - s) - pausedTotal st)
  ∨ (st.current_status = "skipped" ∧ st.datetime_finished = none
     ∧ st.duration = none)

/-! ### The Experiment iteration protocol (expflow.py lines 930-1148)

For the iteration and override claims only the status machines of the
experiment and of its trials, the cursor, and the persisted snapshot are
relevant; the payload fields of a trial are never read by the protocol. -/

/-- The mutable iteration state of an Experiment: its own status machine,
the trial_index cursor, and the status machines of its trials in order. -/
structure ExpCore where
  estatus : StatusState
  trial_index : Option Nat
  trials : List StatusState
deriving Repr, DecidableEq

/-- An Experiment together with the persisted copy of its state.  The
source serialises the object to its default path on every save; here the
file content is the snapshot of the iteration state.  The save method also
stamps datetime_last_saved; that field belongs to the serialisation layer
and is modelled with it further below. -/
structure Exp extends ExpCore where
  saved : Option ExpCore
deriving Repr, DecidableEq

/-- Embeds save() for the iteration layer: persist the current state. -/
def esave (e : Exp) : Exp := { e with saved := some e.toExpCore }

/-- The value the advance step gives the cursor: none becomes 0, a number
is incremented (expflow.py lines 1060-1065). -/
def nextIndex (e : Exp) : Nat :=
  match e.trial_index with
  | none => 0
  | some i => i + 1

/-- The previous-trial step of the advance (expflow.py lines 1067-1071): if
the cursor moved past position 0, finish the previous trial when it is
still running.  The previous_trial lookup raises IndexError outside any try
block when the cursor ran past the end of the list. -/
def finishPrevTrial (trials : List StatusState) (idx : Nat) (t : Int) :
    Except PyErr (List StatusState) :=
  if idx > 0 then
    match trials[idx - 1]? with
    | none => .error .indexError
    | some prev =>
      if prev.current_status = "running" then
        match set_status prev "finished" t with
        | .ok prev2 => .ok (trials.set (idx - 1) prev2)
        | .error err => .error err
      else .ok trials
  else .ok trials

/-- Embeds Experiment.__next__ (expflow.py lines 1052-1095).  The result is
the state of the object after the call together with either the index of
the yielded trial or the exception the call raised; in the source an
exception leaves the object with every mutation performed before the raise.
The try/except IndexError around the current-trial update is modelled by
the none case of the lookup: no other statement of that block can raise
IndexError, because the recursive call starts from a cursor that is in
range.  A single timestamp t stands for the now() calls of one advance;
the timestamps never influence the control flow. -/
def expNext (e : Exp) (t : Int) : Exp × Except PyErr Nat :=
  -- if the experiment is pending or paused, run it
  match (if e.estatus.current_status = "pending" ∨
            e.estatus.current_status = "paused"
         then set_status e.estatus "running" t
         else .ok e.estatus) with
  | .error err => (e, .error err)
  | .ok es =>
    -- advance the cursor: none to 0, otherwise increment
    match hfin : finishPrevTrial e.trials (nextIndex e) t with
    | .error err =>
      ({ e with estatus := es, trial_index := some (nextIndex e) }, .error err)
    | .ok trials2 =>
      match (match hget : trials2[nextIndex e]?  with
             | none =>
               -- IndexError from current_trial, caught by the except clause
               (({ e with
                   estatus := es
                   trial_index := some (nextIndex e)
                   trials := trials2 }, none) : Exp × Option PyErr)
             | some cur =>
               if cur.current_status = "pending" ∨
                   cur.current_status = "paused" then
                 match set_status cur "running" t with
                 | .ok cur2 =>
                   ({ e with
                      estatus := es
                      trial_index := some (nextIndex e)
                      trials := trials2.set (nextIndex e) cur2 }, none)
                 | .error err =>
                   ({ e with
                      estatus := es
                      trial_index := some (nextIndex e)
                      trials := trials2 }, some err)
               else if cur.current_status = "skipped" then
                 match expNext { e with
                     estatus := es
                     trial_index := some (nextIndex e)
                     trials := trials2 } t with
                 | (e3, .ok _) => (e3, none)
                 | (e3, .error err) => (e3, some err)
               else
                 ({ e with
                    estatus := es
                    trial_index := some (nextIndex e)
                    trials := trials2 }, none)) with
      | (e3, some err) => (e3, .error err)
      | (e3, none) =>
        let e4 := esave e3
        match e4.trial_index with
        | none => (e4, .error PyErr.typeError)
        | some i =>
          if i ≥ e4.trials.length then
            match set_status e4.estatus "finished" t with
            | .ok es2 =>
              ({ e4 with estatus := es2, trial_index := none },
                .error .stopIteration)
            | .error err => (e4, .error err)
          else
            (e4, .ok i)
termination_by e.trials.length + 1 - nextIndex e
decreasing_by
  have hlt : nextIndex e < trials2.length := (List.getElem?_eq_some.mp hget).1
  have hlen : trials2.length = e.trials.length := by
    unfold finishPrevTrial at hfin
    split at hfin
    · split at hfin
      · exact absurd hfin (by simp)
      · split at hfin
        · split at hfin
          · simp only [Except.ok.injEq] at hfin
            rw [← hfin]
            exact List.length_set _ _ _
          · exact absurd hfin (by simp)
        · simp only [Except.ok.injEq] at hfin
          rw [hfin]
    · simp only [Except.ok.injEq] at hfin
      rw [hfin]
  cases htri : e.trial_index with
  | none =>
    simp only [nextIndex, htri] at hlt hlen ⊢
    omega
  | some i =>
    simp only [nextIndex, htri] at hlt hlen ⊢
    omega

/-- A fresh Experiment before iteration: own status pending, cursor null. -/
def freshExp (es : StatusState) (trials : List StatusState) : Exp :=
  { estatus := es, trial_index := none, trials := trials, saved := none }

/-- Drives the iteration with one timestamp per advance, collecting the
yielded trial indices, and stopping at the first exception, the way a
Python for loop stops at StopIteration. -/
def runExperiment (e : Exp) : List Int → Exp × List Nat × Option PyErr
  | [] => (e, [], none)
  | t :: ts =>
    match expNext e t with
    | (e2, .ok i) =>
      let r := runExperiment e2 ts
      (r.1, i :: r.2.1, r.2.2)
    | (e2, .error err) => (e2, [], some err)

/-- The status of the trial at position j, if there is one. -/
def trialStatus (e : Exp) (j : Nat) : Option String :=
  (e.trials[j]?).map StatusState.current_status

/-- The lockstep shape of an experiment in mid-iteration at cursor i: the
experiment runs, every trial before the cursor is finished, the trial at
the cursor runs, every trial after it is still pending. -/
def Iterating (e : Exp) (i : Nat) : Prop :=
  e.estatus.current_status = "running" ∧
  e.trial_index = some i ∧
  i < e.trials.length ∧
  (∀ j, j < i → trialStatus e j = some "finished") ∧
  trialStatus e i = some "running" ∧
  (∀ j, i < j → j < e.trials.length → trialStatus e j = some "pending")

/-- Skips every trial of a list in order, the way the comprehension over
remaining_trials does; a failing skip raises, keeping the updates already
made to the trials before it. -/
def skipAll (l : List StatusState) (t : Int) :
    List StatusState × Option PyErr :=
  match l with
  | [] => ([], none)
  | tr :: rest =>
    match set_status tr "skipped" t with
    | .error err => (tr :: rest, some err)
    | .ok tr2 =>
      let r := skipAll rest t
      (tr2 :: r.1, r.2)

/-- Embeds Experiment.skip (expflow.py lines 1136-1141): set the experiment
status to skipped, and if the cursor is not null, skip the current trial
and every remaining trial, then save.  An exception at any step leaves the
mutations already performed, as in the source. -/
def expSkip (e : Exp) (t : Int) : Exp × Option PyErr :=
  match set_status e.estatus "skipped" t with
  | .error err => (e, some err)
  | .ok es =>
    let e1 : Exp := { e with estatus := es }
    match e1.trial_index with
    | none => (esave e1, none)
    | some i =>
      match e1.trials[i]? with
      | none => (e1, some .indexError)
      | some cur =>
        match set_status cur "skipped" t with
        | .error err => (e1, some err)
        | .ok cur2 =>
          let e2 : Exp := { e1 with trials := e1.trials.set i cur2 }
          let r := skipAll (e2.trials.drop (i + 1)) t
          let e3 : Exp := { e2 with trials := e2.trials.take (i + 1) ++ r.1 }
          match r.2 with
          | some err => (e3, some err)
          | none => (esave e3, none)

/-- Embeds Experiment.time_out (expflow.py lines 1143-1148): set the
experiment status to timed_out, and if the cursor is not null, time out the
current trial and skip every remaining trial, then save. -/
def expTimeOut (e : Exp) (t : Int) : Exp × Option PyErr :=
  match set_status e.estatus "timed_out" t with
  | .error err => (e, some err)
  | .ok es =>
    let e1 : Exp := { e with estatus := es }
    match e1.trial_index with
    | none => (esave e1, none)
    | some i =>
      match e1.trials[i]? with
      | none => (e1, some .indexError)
      | some cur =>
        match set_status cur "timed_out" t with
        | .error err => (e1, some err)
        | .ok cur2 =>
          let e2 : Exp := { e1 with trials := e1.trials.set i cur2 }
          let r := skipAll (e2.trials.drop (i + 1)) t
          let e3 : Exp := { e2 with trials := e2.trials.take (i + 1) ++ r.1 }
          match r.2 with
          | some err => (e3, some err)
          | none => (esave e3, none)

/-- A concrete running status machine, for the concrete counterexamples:
a fresh machine started at time 5. -/
def runningStatus : StatusState := doStatusUpdate initialStatus "running" 5

/-- A concrete experiment in mid-iteration: running, cursor on trial 0
which is running, trial 1 still pending. -/
def midIterationExp : Exp :=
  { estatus := runningStatus
  , trial_index := some 0
  , trials := [runningStatus, initialStatus]
  , saved := none }

/-! ### ID validation (expflow.py lines 207-222) -/

/-- A character of the class of the validation pattern: ASCII letters,
digits, underscore and hyphen. -/
def idChar (c : Char) : Bool :=
  (('a' ≤ c && c ≤ 'z') || ('A' ≤ c && c ≤ 'Z') ||
    ('0' ≤ c && c ≤ '9') || c = '_' || c = '-')

/-- Whether re.match of the anchored class pattern succeeds on s.  In the
Python re module the dollar anchor matches at the end of the string and
also just before one newline at the end of the string, so the pattern
accepts a nonempty run of class characters optionally followed by a single
final newline. -/
def matchesIdRegex (s : String) : Bool :=
  let cs := s.toList
  (!cs.isEmpty && cs.all idChar) ||
    (match cs.getLast? with
     | some c => c = '\n' && !cs.dropLast.isEmpty && cs.dropLast.all idChar
     | none => false)

/-- Embeds is_valid_id (lines 207-222): length at least 3 and the regex
match above. -/
def is_valid_id (id_ : String) : Bool :=
  decide (id_.length ≥ 3) && matchesIdRegex id_

/-! ### Serialisation, default paths and construction
(expflow.py lines 342-510, 579-663, 930-1004)

The filesystem is a list of paths; writing a file adds its path if absent,
unlinking removes it.  The directory resolver of the source maps the
Participants and Experiments categories to directories, modelled as the
path prefixes below. -/

/-- Writes the file at path p: after this, p exists. -/
def fsWrite (fs : List String) (p : String) : List String :=
  if p ∈ fs then fs else fs ++ [p]

/-- The default path of a participant record
(get_default_path, lines 410-432): keyed by the participant id, with the
compression flag selecting the extension. -/
def participantDefaultPath (participant_id : String)
    (compression : Bool) : String :=
  "Participants/" ++ participant_id ++ ".json" ++
    (if compression then ".gz" else "")

/-- The default path of an experiment record: keyed by
participant_id.experiment_id. -/
def experimentDefaultPath (participant_id experiment_id : String)
    (compression : Bool) : String :=
  "Experiments/" ++ participant_id ++ "." ++ experiment_id ++ ".json" ++
    (if compression then ".gz" else "")

/-- The fields of a Participant record: the required id, the identity
provenance of the identification mixin, the persistence fields of the
serialisation mixin, and the opaque optional demographic payload. -/
structure ParticipantRec where
  participant_id : String
  hostname : String
  username : String
  datetime_created : Int
  uuid : Nat
  class_name : Option String
  path : Option String
  datetime_last_saved : Option Int
  compression : Bool
  dob : Option String
  age : Option Int
  gender : Option String
  language : Option String
  comments : Option String
  group : Option String
  temporary_participant : Bool
deriving Repr, DecidableEq

/-- The fields of an Experiment record: the required ids, identity
provenance, persistence fields, the status machine fields, the cursor and
the embedded trials (each trial carries its own status machine; the trial
payload fields are opaque and never read by this logic). -/
structure ExperimentRec where
  participant_id : String
  experiment_id : String
  hostname : String
  username : String
  datetime_created : Int
  uuid : Nat
  class_name : Option String
  path : Option String
  datetime_last_saved : Option Int
  compression : Bool
  estatus : StatusState
  trial_index : Option Nat
  trials : List StatusState
deriving Repr, DecidableEq

/-- The identification-mixin part of construction (lines 286-324): fill a
missing class name with the runtime name, then require the recorded name
to equal the runtime name; a mismatch raises WrongClassError.  The base
name check of the source compares against the same name for the two base
classes modelled here. -/
def identCheck (class_name : Option String) (runtime : String) :
    Except PyErr String :=
  let c := class_name.getD runtime
  if c ≠ runtime then .error .wrongClassError else .ok c

/-- Embeds the construction and validation chain run for a Participant on
construction and on deserialisation (lines 286-293, 369-377, 434-453,
455-473, 658-663): identity validation, default-path resolution, the
fresh-object existence check followed by an immediate save, and finally
the id format check.  The filesystem is returned in both outcomes because
a raise in the source still leaves every file operation already
performed. -/
def constructParticipant (fs : List String) (p : ParticipantRec)
    (tnow : Int) : List String × Except PyErr ParticipantRec :=
  match identCheck p.class_name "Participant" with
  | .error err => (fs, .error err)
  | .ok cname =>
    let dp := participantDefaultPath p.participant_id p.compression
    let p1 : ParticipantRec :=
      { p with class_name := some cname, path := some dp }
    match (if p1.datetime_last_saved = none then
            if dp ∈ fs ∨ (dp ++ ".gz") ∈ fs then
              (none : Option (List String × ParticipantRec))
            else
              some (fsWrite fs dp,
                { p1 with datetime_last_saved := some tnow })
          else some (fs, p1)) with
    | none => (fs, .error .participantExistsError)
    | some (fs2, p2) =>
      if ¬ is_valid_id p2.participant_id then
        (fs2, .error (.valueError
          ("Invalid participant ID: " ++ p2.participant_id)))
      else
        (fs2, .ok p2)

/-- Embeds Experiment.pause (lines 1130-1134) on the serialised record:
pause the experiment, pause the current trial when the cursor is not null,
then save. -/
def pauseExperimentRec (fs : List String) (r : ExperimentRec) (tnow : Int) :
    List String × Except PyErr ExperimentRec :=
  match set_status r.estatus "paused" tnow with
  | .error err => (fs, .error err)
  | .ok es =>
    let r1 : ExperimentRec := { r with estatus := es }
    match (match r1.trial_index with
           | none => Except.ok r1
           | some i =>
             match r1.trials[i]? with
             | none => Except.error PyErr.indexError
             | some cur =>
               match set_status cur "paused" tnow with
               | .error err => Except.error err
               | .ok cur2 =>
                 Except.ok { r1 with trials := r1.trials.set i cur2 }) with
    | .error err => (fs, .error err)
    | .ok r2 =>
      let r3 : ExperimentRec := { r2 with datetime_last_saved := some tnow }
      match r3.path with
      | none => (fs, .ok r3)
      | some dp => (fsWrite fs dp, .ok r3)

/-- Embeds the construction and validation chain run for an Experiment on
construction and on deserialisation (lines 369-377, 434-453, 981-1016):
identity validation, default-path resolution, the fresh-object existence
check and immediate save, the participant-file check that deletes the just
created experiment file and raises when the participant is missing, the
interrupted-run check that pauses an experiment loaded while running, and
the id format checks. -/
def constructExperiment (fs : List String) (r : ExperimentRec)
    (tnow : Int) : List String × Except PyErr ExperimentRec :=
  match identCheck r.class_name "Experiment" with
  | .error err => (fs, .error err)
  | .ok cname =>
    let dp := experimentDefaultPath r.participant_id r.experiment_id
      r.compression
    let r1 : ExperimentRec :=
      { r with class_name := some cname, path := some dp }
    match (if r1.datetime_last_saved = none then
            if dp ∈ fs ∨ (dp ++ ".gz") ∈ fs then
              (none : Option (List String × ExperimentRec))
            else
              some (fsWrite fs dp,
                { r1 with datetime_last_saved := some tnow })
          else some (fs, r1)) with
    | none => (fs, .error .experimentExistsError)
    | some (fs2, r2) =>
      if participantDefaultPath r.participant_id false ∉ fs2 ∧
          participantDefaultPath r.participant_id true ∉ fs2 then
        -- remove the experiment file, then raise; unlink itself raises
        -- when the file does not exist
        if dp ∈ fs2 then
          (fs2.erase dp, .error .participantDoesNotExistError)
        else
          (fs2, .error .fileNotFoundError)
      else
        match (if r2.estatus.current_status = "running" then
                pauseExperimentRec fs2 r2 tnow
              else (fs2, .ok r2)) with
        | (fs3, .error err) => (fs3, .error err)
        | (fs3, .ok r3) =>
          if ¬ is_valid_id r3.participant_id then
            (fs3, .error (.valueError
              ("Invalid participant ID: " ++ r3.participant_id)))
          else if ¬ is_valid_id r3.experiment_id then
            (fs3, .error (.valueError
              ("Invalid experiment ID: " ++ r3.experiment_id)))
          else
            (fs3, .ok r3)

/-- Embeds save() (lines 455-473): stamp datetime_last_saved first, then
write to the path unless it is null. -/
def saveParticipant (fs : List String) (p : ParticipantRec) (tnow : Int) :
    List String × ParticipantRec :=
  let p2 : ParticipantRec := { p with datetime_last_saved := some tnow }
  match p2.path with
  | none => (fs, p2)
  | some dp => (fsWrite fs dp, p2)

/-- The serialised document of an Experiment holds exactly its dataclass
fields; to_json writes them all, so the document is modelled as the field
record itself (the path is stored as its string form and survives, since
every default path contains .json, which the decoder requires). -/
def experimentToJson (r : ExperimentRec) : ExperimentRec := r

/-- from_json builds the dataclass from the stored fields and runs the full
construction chain on it. -/
def experimentFromJson (fs : List String) (doc : ExperimentRec)
    (tnow : Int) : List String × Except PyErr ExperimentRec :=
  constructExperiment fs doc tnow

/-- The serialised document of a Participant. -/
def participantToJson (p : ParticipantRec) : ParticipantRec := p

/-- from_json for a Participant. -/
def participantFromJson (fs : List String) (doc : ParticipantRec)
    (tnow : Int) : List String × Except PyErr ParticipantRec :=
  constructParticipant fs doc tnow

/-- The current status of the record a construction returned, if any. -/
def constructedStatus (r : List String × Except PyErr ExperimentRec) :
    Option String :=
  match r.2 with
  | .ok rec => some rec.estatus.current_status
  | .error _ => none

/-- Whether a participant construction succeeded. -/
def participantConstructionOk
    (r : List String × Except PyErr ParticipantRec) : Bool :=
  match r.2 with
  | .ok _ => true
  | .error _ => false

/-- A concrete fresh participant record as the constructor builds it before
validation: only the id and the compression flag are user supplied. -/
def freshParticipant (participant_id : String) (compression : Bool) :
    ParticipantRec :=
  { participant_id := participant_id
  , hostname := "host"
  , username := "user"
  , datetime_created := 0
  , uuid := 0
  , class_name := none
  , path := none
  , datetime_last_saved := none
  , compression := compression
  , dob := none
  , age := none
  , gender := none
  , language := none
  , comments := none
  , group := none
  , temporary_participant := false }

/-- A concrete fresh experiment record. -/
def freshExperiment (participant_id experiment_id : String)
    (compression : Bool) : ExperimentRec :=
  { participant_id := participant_id
  , experiment_id := experiment_id
  , hostname := "host"
  , username := "user"
  , datetime_created := 0
  , uuid := 0
  , class_name := none
  , path := none
  , datetime_last_saved := none
  , compression := compression
  , estatus := initialStatus
  , trial_index := none
  , trials := [] }

/-- A concrete serialised document of an experiment that was saved while
running, with the cursor on trial 0 which was also running. -/
def runningExperimentDoc : ExperimentRec :=
  { freshExperiment "abc" "exp" false with
    class_name := some "Experiment"
    path := some (experimentDefaultPath "abc" "exp" false)
    datetime_last_saved := some 7
    estatus := runningStatus
    trial_index := some 0
    trials := [runningStatus, initialStatus] }

/-- The filesystem holding the participant and experiment files of the
document above. -/
def runningExperimentFs : List String :=
  [participantDefaultPath "abc" false, experimentDefaultPath "abc" "exp" false]

/-- A concrete serialised participant document, as written by a save. -/
def storedParticipantDoc : ParticipantRec :=
  { freshParticipant "abc" false with
    class_name := some "Participant"
    path := some (participantDefaultPath "abc" false)
    datetime_last_saved := some 5 }

/-- A concrete serialised experiment document of a pending experiment. -/
def storedExperimentDoc : ExperimentRec :=
  { freshExperiment "abc" "exp" false with
    class_name := some "Experiment"
    path := some (experimentDefaultPath "abc" "exp" false)
    datetime_last_saved := some 5 }

end Expflow

namespace Expflow

/-! ### Theorems about the status machine -/

/-- set_status fails, and hence leaves the object untouched, whenever the
requested status is not in the transitions set of the current status. -/
theorem applyStatus_eq_of_not_mem (st : StatusState) (s : String) (t : Int)
    (ts : List String) (hold : transitionsOf st.current_status = some ts)
    (hmem : s ∉ ts) : applyStatus st s t = st := by
  unfold applyStatus set_status
  simp only [hold]
  by_cases hn : (transitionsOf s).isNone
  · simp [hn]
  · simp [hn, hmem]

/-- set_status succeeds exactly when the requested status is a known status
and is in the transitions set of the current status. -/
theorem set_status_ok_iff (st : StatusState) (s : String) (t : Int) :
    (∃ st2, set_status st s t = .ok st2) ↔
      ((transitionsOf s).isSome ∧
        ∃ ts, transitionsOf st.current_status = some ts ∧ s ∈ ts) := by
  unfold set_status
  by_cases hn : (transitionsOf s).isNone
  · simp [hn]
  · cases hold : transitionsOf st.current_status with
    | none => simp [hn, hold]
    | some ts =>
      by_cases hmem : s ∈ ts
      · simp only [hn, hold, Bool.false_eq_true, if_false, hmem,
          not_true_eq_false, if_false]
        constructor
        · intro _
          refine ⟨?_, ts, rfl, hmem⟩
          rw [Option.isSome_iff_ne_none]
          intro hx
          rw [hx] at hn
          simp at hn
        · intro _
          exact ⟨_, rfl⟩
      · simp [hn, hold, hmem]

/-- C2: for every status machine whose current status is a known status and
for every string s, set_status s succeeds exactly when s is listed for the
current status in the transition table (pending to running or skipped,
running to finished, timed_out or paused, paused to running, nothing from
finished, timed_out or skipped, and nothing for an s outside the known
status set), and a failing call leaves the machine unchanged. -/
theorem set_status_follows_transition_table (st : StatusState) (s : String)
    (t : Int) (h : st.current_status ∈ statusNames) :
    ((∃ st2, set_status st s t = .ok st2) ↔ s ∈ specTable st.current_status)
    ∧ ((∀ st2, set_status st s t ≠ .ok st2) → applyStatus st s t = st) := by
  constructor
  · rw [set_status_ok_iff]
    simp only [statusNames, List.mem_cons, List.not_mem_nil, or_false] at h
    rcases h with h | h | h | h | h | h <;> rw [h] <;>
      simp only [transitionsOf, specTable, Option.some.injEq,
        exists_eq_left'] <;>
      constructor
    · exact fun hh => hh.2
    · intro hmem
      refine ⟨?_, hmem⟩
      simp only [List.mem_cons, List.not_mem_nil, or_false] at hmem
      rcases hmem with rfl | rfl <;> decide
    · exact fun hh => hh.2
    · intro hmem
      refine ⟨?_, hmem⟩
      simp only [List.mem_cons, List.not_mem_nil, or_false] at hmem
      rcases hmem with rfl | rfl | rfl <;> decide
    · exact fun hh => hh.2
    · intro hmem
      refine ⟨?_, hmem⟩
      simp only [List.mem_cons, List.not_mem_nil, or_false] at hmem
      rcases hmem with rfl
      decide
    · simp
    · simp
    · simp
    · simp
    · simp
    · simp
  · intro hfail
    unfold applyStatus
    cases hcase : set_status st s t with
    | ok st2 => exact absurd hcase (hfail st2)
    | error e => rfl

/-- Witness for the transition-table theorem at a concrete machine: a fresh
pending machine accepts running and rejects finished. -/
theorem set_status_follows_transition_table_witness :
    (initialStatus.current_status ∈ statusNames) ∧
    ((∃ st2, set_status initialStatus "running" 0 = .ok st2) ↔
      "running" ∈ specTable initialStatus.current_status) ∧
    ((∃ st2, set_status initialStatus "finished" 0 = .ok st2) ↔
      "finished" ∈ specTable initialStatus.current_status) :=
  ⟨by decide,
    (set_status_follows_transition_table initialStatus "running" 0
      (by decide)).1,
    (set_status_follows_transition_table initialStatus "finished" 0
      (by decide)).1⟩

/-- A successful set_status call performs exactly the doStatusUpdate
mutations. -/
theorem applyStatus_ok (st : StatusState) (s : String) (t : Int)
    (ts : List String) (hold : transitionsOf st.current_status = some ts)
    (hmem : s ∈ ts) (hsome : (transitionsOf s).isSome) :
    applyStatus st s t = doStatusUpdate st s t := by
  unfold applyStatus set_status
  cases hc : transitionsOf s with
  | none => rw [hc] at hsome; simp at hsome
  | some ts2 => simp [hc, hold, hmem]

/-- Every transition of the status setter preserves the timing invariant,
where the new timestamp is at least the previous one. -/
theorem inv_applyStatus (st : StatusState) (s : String) (t t1 : Int)
    (hinv : Inv st t) (hle : t ≤ t1) : Inv (applyStatus st s t1) t1 := by
  rcases hinv with ⟨hc, hs, hf, hp, hd⟩ | ⟨hc, hf, hd, s0, hs0, hbound⟩ |
    ⟨hc, hf, hd, s0, p, hs0, hlp, hb1, hb2⟩ | ⟨hc, s0, f, hs0, hf, hdur, hnn⟩ |
    ⟨hc, hf, hd⟩
  · -- current status pending
    by_cases h1 : s = "running"
    · subst h1
      rw [applyStatus_ok st _ t1 ["running", "skipped"] (by rw [hc]; decide)
        (by simp) (by decide)]
      refine Or.inr (Or.inl ?_)
      simp [doStatusUpdate, hc, hf, hd, pausedTotal, hp]
    · by_cases h2 : s = "skipped"
      · subst h2
        rw [applyStatus_ok st _ t1 ["running", "skipped"] (by rw [hc]; decide)
          (by simp) (by decide)]
        refine Or.inr (Or.inr (Or.inr (Or.inr ?_)))
        simp [doStatusUpdate, hc, hf, hd]
      · rw [applyStatus_eq_of_not_mem st s t1 ["running", "skipped"]
          (by rw [hc]; decide) (by simp [h1, h2])]
        exact Or.inl ⟨hc, hs, hf, hp, hd⟩
  · -- current status running
    by_cases h1 : s = "finished" ∨ s = "timed_out"
    · have hmem : s ∈ ["finished", "timed_out", "paused"] := by
        rcases h1 with rfl | rfl <;> simp
      rw [applyStatus_ok st s t1 ["finished", "timed_out", "paused"]
        (by rw [hc]; decide) hmem
        (by rcases h1 with rfl | rfl <;> decide)]
      refine Or.inr (Or.inr (Or.inr (Or.inl ?_)))
      have hnew : doStatusUpdate st s t1 =
          { st with
            status_history :=
              st.status_history ++ [(st.current_status, s, t1)]
          , current_status := s
          , datetime_finished := some t1
          , duration := some ((t1 - s0) - pausedTotal st) } := by
        rcases h1 with rfl | rfl <;>
          simp [doStatusUpdate, hc, get_duration, hs0, pausedTotal]
      rw [hnew]
      refine ⟨by rcases h1 with rfl | rfl <;> simp, s0, t1, hs0, rfl, ?_, ?_⟩
      · simp [pausedTotal]
      · simp [pausedTotal] at hbound ⊢
        omega
    · by_cases h2 : s = "paused"
      · subst h2
        rw [applyStatus_ok st _ t1 ["finished", "timed_out", "paused"]
          (by rw [hc]; decide) (by simp) (by decide)]
        refine Or.inr (Or.inr (Or.inl ?_))
        refine ⟨by simp [doStatusUpdate, hc], ?_, ?_, s0, t1, ?_, ?_, ?_,
          le_refl t1⟩
        · simp [doStatusUpdate, hc, hf]
        · simp [doStatusUpdate, hc, hd]
        · simp [doStatusUpdate, hc, hs0]
        · simp [doStatusUpdate, hc]
        · simp [doStatusUpdate, hc, pausedTotal] at hbound ⊢
          omega
      · push_neg at h1
        rw [applyStatus_eq_of_not_mem st s t1
          ["finished", "timed_out", "paused"]
          (by rw [hc]; decide) (by simp [h1.1, h1.2, h2])]
        exact Or.inr (Or.inl ⟨hc, hf, hd, s0, hs0, by omega⟩)
  · -- current status paused
    by_cases h1 : s = "running"
    · subst h1
      rw [applyStatus_ok st _ t1 ["running"] (by rw [hc]; decide)
        (by simp) (by decide)]
      refine Or.inr (Or.inl ?_)
      refine ⟨by simp [doStatusUpdate, hc], ?_, ?_, s0, ?_, ?_⟩
      · simp [doStatusUpdate, hc, hf]
      · simp [doStatusUpdate, hc, hd]
      · simp [doStatusUpdate, hc, hs0]
      · simp [doStatusUpdate, hc, hlp, pausedTotal] at hb1 ⊢
        omega
    · rw [applyStatus_eq_of_not_mem st s t1 ["running"]
        (by rw [hc]; decide) (by simp [h1])]
      exact Or.inr (Or.inr (Or.inl ⟨hc, hf, hd, s0, p, hs0, hlp, hb1, by omega⟩))
  · -- current status finished or timed_out: terminal
    have hstop : applyStatus st s t1 = st := by
      rcases hc with hc | hc
      · exact applyStatus_eq_of_not_mem st s t1 [] (by rw [hc]; decide)
          (by simp)
      · exact applyStatus_eq_of_not_mem st s t1 [] (by rw [hc]; decide)
          (by simp)
    rw [hstop]
    exact Or.inr (Or.inr (Or.inr (Or.inl ⟨hc, s0, f, hs0, hf, hdur, hnn⟩)))
  · -- current status skipped: terminal
    rw [applyStatus_eq_of_not_mem st s t1 [] (by rw [hc]; decide) (by simp)]
    exact Or.inr (Or.inr (Or.inr (Or.inr ⟨hc, hf, hd⟩)))

/-- Running any nondecreasing command list from an invariant state ends in
an invariant state. -/
theorem inv_runTrace (st : StatusState) (t : Int) (tr : List (String × Int))
    (hinv : Inv st t) (hmono : TimesMono t tr) :
    ∃ t1, Inv (runTrace st tr) t1 := by
  induction tr generalizing st t with
  | nil => exact ⟨t, hinv⟩
  | cons head rest ih =>
    obtain ⟨s1, t1⟩ := head
    obtain ⟨hle, hmono2⟩ := hmono
    exact ih (applyStatus st s1 t1) t1 (inv_applyStatus st s1 t t1 hinv hle)
      hmono2

/-- C3: on every machine reached from a fresh one by a sequence of
set_status calls with nondecreasing timestamps, get_duration returns none
while the machine is not finished and not timed_out; once it is, the stored
duration field equals datetime_finished minus datetime_started minus the
summed lengths of the recorded pause intervals, and that value is
nonnegative. -/
theorem duration_accounting (tr : List (String × Int)) (t0 : Int)
    (hmono : TimesMono t0 tr) :
    ((runTrace initialStatus tr).current_status ≠ "finished" ∧
      (runTrace initialStatus tr).current_status ≠ "timed_out" →
      get_duration (runTrace initialStatus tr) = none ∧
      (runTrace initialStatus tr).duration = none) ∧
    ((runTrace initialStatus tr).current_status = "finished" ∨
      (runTrace initialStatus tr).current_status = "timed_out" →
      ∃ s f, (runTrace initialStatus tr).datetime_started = some s ∧
        (runTrace initialStatus tr).datetime_finished = some f ∧
        (runTrace initialStatus tr).duration =
          some ((f - s) - pausedTotal (runTrace initialStatus tr)) ∧
        0 ≤ (f - s) - pausedTotal (runTrace initialStatus tr)) := by
  have h0 : Inv initialStatus t0 := Or.inl (by simp [initialStatus])
  obtain ⟨t1, hinv⟩ := inv_runTrace initialStatus t0 tr h0 hmono
  rcases hinv with ⟨hc, _, hf, _, hd⟩ | ⟨hc, hf, hd, _, _, _⟩ |
    ⟨hc, hf, hd, _, _, _, _, _, _⟩ | ⟨hc, s0, f, hs0, hf, hdur, hnn⟩ |
    ⟨hc, hf, hd⟩
  · refine ⟨fun _ => ⟨by simp [get_duration, hf], hd⟩, fun habs => ?_⟩
    rcases habs with habs | habs <;> rw [hc] at habs <;> simp at habs
  · refine ⟨fun _ => ⟨by simp [get_duration, hf], hd⟩, fun habs => ?_⟩
    rcases habs with habs | habs <;> rw [hc] at habs <;> simp at habs
  · refine ⟨fun _ => ⟨by simp [get_duration, hf], hd⟩, fun habs => ?_⟩
    rcases habs with habs | habs <;> rw [hc] at habs <;> simp at habs
  · refine ⟨fun habs => ?_, fun _ => ⟨s0, f, hs0, hf, hdur, hnn⟩⟩
    rcases hc with hc | hc
    · exact absurd hc habs.1
    · exact absurd hc habs.2
  · refine ⟨fun _ => ⟨by simp [get_duration, hf], hd⟩, fun habs => ?_⟩
    rcases habs with habs | habs <;> rw [hc] at habs <;> simp at habs

/-- Witness for the duration theorem on the concrete run
run at 1, pause at 3, resume at 5, finish at 10: the machine finishes and
its stored duration is the elapsed time minus the pause. -/
theorem duration_accounting_witness :
    TimesMono 0 [("running", 1), ("paused", 3), ("running", 5),
      ("finished", 10)] ∧
    (∃ s f,
      (runTrace initialStatus [("running", 1), ("paused", 3), ("running", 5),
        ("finished", 10)]).datetime_started = some s ∧
      (runTrace initialStatus [("running", 1), ("paused", 3), ("running", 5),
        ("finished", 10)]).datetime_finished = some f ∧
      (runTrace initialStatus [("running", 1), ("paused", 3), ("running", 5),
        ("finished", 10)]).duration =
        some ((f - s) - pausedTotal (runTrace initialStatus
          [("running", 1), ("paused", 3), ("running", 5),
            ("finished", 10)])) ∧
      0 ≤ (f - s) - pausedTotal (runTrace initialStatus
        [("running", 1), ("paused", 3), ("running", 5), ("finished", 10)])) := by
  have hm : TimesMono 0 [("running", 1), ("paused", 3), ("running", 5),
      ("finished", 10)] := by
    simp only [TimesMono]
    norm_num
  exact ⟨hm, (duration_accounting _ 0 hm).2 (by decide)⟩

/-! ### Theorems about the iteration protocol -/

/-- A successful set_status call returns exactly the doStatusUpdate
mutations. -/
theorem set_status_eq_ok (st : StatusState) (s : String) (t : Int)
    (ts : List String) (hold : transitionsOf st.current_status = some ts)
    (hmem : s ∈ ts) (hsome : (transitionsOf s).isSome) :
    set_status st s t = .ok (doStatusUpdate st s t) := by
  unfold set_status
  cases hc : transitionsOf s with
  | none => rw [hc] at hsome; simp at hsome
  | some ts2 => simp [hc, hold, hmem]

/-- The status setter always records the requested status. -/
theorem doStatusUpdate_current_status (st : StatusState) (s : String)
    (t : Int) : (doStatusUpdate st s t).current_status = s := by
  unfold doStatusUpdate
  by_cases h1 : s = "running"
  · by_cases h2 : st.current_status = "paused"
    · simp [h1, h2]
    · by_cases h3 : st.current_status = "pending" <;> simp [h1, h2, h3]
  · by_cases h4 : s = "finished" ∨ s = "timed_out"
    · simp [h1, h4]
    · by_cases h5 : s = "paused" <;> simp [h1, h4, h5]

/-- Finishing the previous trial is a no-op when the cursor lands on 0. -/
theorem finishPrevTrial_zero (trials : List StatusState) (t : Int) :
    finishPrevTrial trials 0 t = .ok trials := by
  simp [finishPrevTrial]

/-- The first advance of a fresh experiment whose first trial is pending:
the experiment starts running, the cursor lands on 0, trial 0 starts
running, the state is persisted and trial 0 is yielded. -/
theorem expNext_first (e : Exp) (t : Int) (tr0 : StatusState)
    (hc : e.estatus.current_status = "pending") (hidx : e.trial_index = none)
    (hlen : 0 < e.trials.length)
    (hg0 : e.trials[0]? = some tr0)
    (hp0 : tr0.current_status = "pending") :
    expNext e t =
      (esave { estatus := doStatusUpdate e.estatus "running" t
               trial_index := some 0
               trials := e.trials.set 0 (doStatusUpdate tr0 "running" t)
               saved := e.saved }, .ok 0) := by
  have hni : nextIndex e = 0 := by simp [nextIndex, hidx]
  unfold expNext
  rw [set_status_eq_ok e.estatus "running" t ["running", "skipped"]
    (by rw [hc]; decide) (by simp) (by decide)]
  simp only [hc, eq_self_iff_true, true_or, if_true]
  rw [hni, finishPrevTrial_zero]
  split
  · rename_i err hfin
    cases hfin
  · rename_i trials2 hfin
    injection hfin with hfin2
    subst hfin2
    rw [hg0]
    split
    · rename_i e3 err htry
      simp only [hp0, eq_self_iff_true, true_or, if_true,
        set_status_eq_ok tr0 "running" t ["running", "skipped"]
          (by rw [hp0]; decide) (by simp) (by decide)] at htry
      injection htry with h1 h2
      cases h2
    · rename_i e3 htry
      simp only [hp0, eq_self_iff_true, true_or, if_true,
        set_status_eq_ok tr0 "running" t ["running", "skipped"]
          (by rw [hp0]; decide) (by simp) (by decide)] at htry
      injection htry with h1 h2
      subst h1
      simp only [esave]
      rw [if_neg (by rw [List.length_set]; omega)]

/-- Finishing the previous trial at cursor i + 1 when the trial at i is
running: that trial is finished in place. -/
theorem finishPrevTrial_running (trials : List StatusState) (i : Nat)
    (t : Int) (tri : StatusState) (hg : trials[i]? = some tri)
    (hr : tri.current_status = "running") :
    finishPrevTrial trials (i + 1) t =
      .ok (trials.set i (doStatusUpdate tri "finished" t)) := by
  unfold finishPrevTrial
  simp only [Nat.add_sub_cancel, gt_iff_lt, Nat.succ_pos, if_true]
  rw [hg]
  simp only [hr, eq_self_iff_true, if_true]
  rw [set_status_eq_ok tri "finished" t ["finished", "timed_out", "paused"]
    (by rw [hr]; decide) (by simp) (by decide)]

/-- A middle advance: the experiment is running at cursor i, the trial at i
is running and the one at i + 1 is pending and not the last position is
reached; the previous trial is finished, the next one starts running, the
state is persisted and trial i + 1 is yielded. -/
theorem expNext_middle (e : Exp) (t : Int) (i : Nat) (tri tri1 : StatusState)
    (hc : e.estatus.current_status = "running")
    (hidx : e.trial_index = some i)
    (hg1 : e.trials[i]? = some tri) (hr : tri.current_status = "running")
    (hg2 : e.trials[i + 1]? = some tri1)
    (hp : tri1.current_status = "pending")
    (hlen : i + 1 < e.trials.length) :
    expNext e t =
      (esave { estatus := e.estatus
               trial_index := some (i + 1)
               trials := (e.trials.set i (doStatusUpdate tri "finished" t)).set
                 (i + 1) (doStatusUpdate tri1 "running" t)
               saved := e.saved }, .ok (i + 1)) := by
  have hni : nextIndex e = i + 1 := by simp [nextIndex, hidx]
  have hg2b : (e.trials.set i (doStatusUpdate tri "finished" t))[i + 1]? =
      some tri1 := by
    rw [List.getElem?_set_ne (by omega)]
    exact hg2
  unfold expNext
  rw [hc]
  simp only [String.reduceEq, false_or, if_false]
  rw [hni, finishPrevTrial_running e.trials i t tri hg1 hr]
  split
  · rename_i err hfin
    cases hfin
  · rename_i trials2 hfin
    injection hfin with hfin2
    subst hfin2
    rw [hg2b]
    split
    · rename_i e3 err htry
      simp only [hp, eq_self_iff_true, true_or, if_true,
        set_status_eq_ok tri1 "running" t ["running", "skipped"]
          (by rw [hp]; decide) (by simp) (by decide)] at htry
      injection htry with h1 h2
      cases h2
    · rename_i e3 htry
      simp only [hp, eq_self_iff_true, true_or, if_true,
        set_status_eq_ok tri1 "running" t ["running", "skipped"]
          (by rw [hp]; decide) (by simp) (by decide)] at htry
      injection htry with h1 h2
      subst h1
      simp only [esave]
      rw [if_neg (by rw [List.length_set, List.length_set]; omega)]

/-- The final advance: the experiment is running at the last cursor
position i with the trial at i running; the trial at i is finished, the
state with cursor i + 1 is persisted, the experiment itself is finished,
the cursor resets to none and StopIteration is raised. -/
theorem expNext_last (e : Exp) (t : Int) (i : Nat) (tri : StatusState)
    (hc : e.estatus.current_status = "running")
    (hidx : e.trial_index = some i)
    (hg1 : e.trials[i]? = some tri) (hr : tri.current_status = "running")
    (hlen : i + 1 = e.trials.length) :
    expNext e t =
      ({ estatus := doStatusUpdate e.estatus "finished" t
         trial_index := none
         trials := e.trials.set i (doStatusUpdate tri "finished" t)
         saved := some { estatus := e.estatus
                         trial_index := some (i + 1)
                         trials :=
                           e.trials.set i (doStatusUpdate tri "finished" t) } },
        .error .stopIteration) := by
  have hni : nextIndex e = i + 1 := by simp [nextIndex, hidx]
  have hnone : (e.trials.set i (doStatusUpdate tri "finished" t))[i + 1]? =
      none := by
    rw [List.getElem?_eq_none]
    rw [List.length_set]
    omega
  unfold expNext
  rw [hc]
  simp only [String.reduceEq, false_or, if_false]
  rw [hni, finishPrevTrial_running e.trials i t tri hg1 hr]
  split
  · rename_i err hfin
    cases hfin
  · rename_i trials2 hfin
    injection hfin with hfin2
    subst hfin2
    rw [hnone]
    split
    · rename_i e3 err htry
      injection htry with h1 h2
      cases h2
    · rename_i e3 htry
      injection htry with h1 h2
      subst h1
      simp only [esave]
      rw [if_pos (by rw [List.length_set]; omega)]
      rw [set_status_eq_ok e.estatus "finished" t
        ["finished", "timed_out", "paused"] (by rw [hc]; decide) (by simp)
        (by decide)]

/-- The first advance establishes the lockstep shape at cursor 0. -/
theorem iterStep_first (e : Exp) (t : Int)
    (hc : e.estatus.current_status = "pending") (hidx : e.trial_index = none)
    (hlen : 0 < e.trials.length)
    (hall : ∀ j, j < e.trials.length → trialStatus e j = some "pending") :
    ∃ e2, expNext e t = (e2, .ok 0) ∧ Iterating e2 0 ∧
      e2.trials.length = e.trials.length := by
  obtain ⟨tr0, hg0⟩ : ∃ tr0, e.trials[0]? = some tr0 :=
    ⟨_, List.getElem?_eq_getElem hlen⟩
  have hp0 : tr0.current_status = "pending" := by
    have h := hall 0 hlen
    rw [trialStatus, hg0] at h
    simpa using h
  refine ⟨_, expNext_first e t tr0 hc hidx hlen hg0 hp0, ?_, by
    simp [esave, List.length_set]⟩
  refine ⟨by simp [esave, doStatusUpdate_current_status], rfl, ?_, ?_, ?_, ?_⟩
  · simpa [esave, List.length_set] using hlen
  · intro j hj
    omega
  · simp only [Iterating, esave, trialStatus]
    rw [List.getElem?_set_self (by omega)]
    simp [doStatusUpdate_current_status]
  · intro j hj hjlen
    simp only [esave, trialStatus] at hjlen ⊢
    rw [List.length_set] at hjlen
    rw [List.getElem?_set_ne (by omega)]
    exact hall j hjlen

/-- A middle advance preserves the lockstep shape, moving the cursor from i
to i + 1. -/
theorem iterStep_middle (e : Exp) (t : Int) (i : Nat)
    (hit : Iterating e i) (hlt : i + 1 < e.trials.length) :
    ∃ e2, expNext e t = (e2, .ok (i + 1)) ∧ Iterating e2 (i + 1) ∧
      e2.trials.length = e.trials.length := by
  obtain ⟨hc, hidx, hilen, hfin, hrun, hpend⟩ := hit
  obtain ⟨tri, hg1⟩ : ∃ tri, e.trials[i]? = some tri :=
    ⟨_, List.getElem?_eq_getElem hilen⟩
  have hr : tri.current_status = "running" := by
    rw [trialStatus, hg1] at hrun
    simpa using hrun
  obtain ⟨tri1, hg2⟩ : ∃ tri1, e.trials[i + 1]? = some tri1 :=
    ⟨_, List.getElem?_eq_getElem hlt⟩
  have hp : tri1.current_status = "pending" := by
    have h := hpend (i + 1) (by omega) hlt
    rw [trialStatus, hg2] at h
    simpa using h
  refine ⟨_, expNext_middle e t i tri tri1 hc hidx hg1 hr hg2 hp hlt, ?_, by
    simp [esave, List.length_set]⟩
  refine ⟨by simpa [esave] using hc, rfl, ?_, ?_, ?_, ?_⟩
  · simpa [esave, List.length_set] using hlt
  · intro j hj
    simp only [esave, trialStatus]
    by_cases hji : j = i
    · subst hji
      rw [List.getElem?_set_ne (by omega), List.getElem?_set_self (by omega)]
      simp [doStatusUpdate_current_status]
    · rw [List.getElem?_set_ne (by omega), List.getElem?_set_ne (by omega)]
      exact hfin j (by omega)
  · simp only [esave, trialStatus]
    rw [List.getElem?_set_self (by rw [List.length_set]; omega)]
    simp [doStatusUpdate_current_status]
  · intro j hj hjlen
    simp only [esave, trialStatus] at hjlen ⊢
    rw [List.length_set, List.length_set] at hjlen
    rw [List.getElem?_set_ne (by omega), List.getElem?_set_ne (by omega)]
    exact hpend j (by omega) hjlen

/-- The advance from the last cursor position finishes the last trial and
the experiment, resets the cursor and raises StopIteration. -/
theorem iterStep_last (e : Exp) (t : Int) (i : Nat)
    (hit : Iterating e i) (hlast : i + 1 = e.trials.length) :
    ∃ ef, expNext e t = (ef, .error .stopIteration) ∧
      ef.estatus.current_status = "finished" ∧ ef.trial_index = none ∧
      ef.trials.length = e.trials.length ∧
      (∀ j, j < ef.trials.length → trialStatus ef j = some "finished") := by
  obtain ⟨hc, hidx, hilen, hfin, hrun, hpend⟩ := hit
  obtain ⟨tri, hg1⟩ : ∃ tri, e.trials[i]? = some tri :=
    ⟨_, List.getElem?_eq_getElem hilen⟩
  have hr : tri.current_status = "running" := by
    rw [trialStatus, hg1] at hrun
    simpa using hrun
  refine ⟨_, expNext_last e t i tri hc hidx hg1 hr hlast, ?_, rfl, by
    simp [List.length_set], ?_⟩
  · simp [doStatusUpdate_current_status]
  · intro j hj
    simp only [trialStatus] at hj ⊢
    simp only [List.length_set] at hj
    by_cases hji : j = i
    · subst hji
      rw [List.getElem?_set_self (by omega)]
      simp [doStatusUpdate_current_status]
    · rw [List.getElem?_set_ne (by omega)]
      exact hfin j (by omega)

/-- Runs compose: a run that ends without an exception followed by more
timestamps continues from the reached state, accumulating the yields. -/
theorem runExperiment_append (e : Exp) (ts1 ts2 : List Int) (e1 : Exp)
    (ys : List Nat) (h : runExperiment e ts1 = (e1, ys, none)) :
    runExperiment e (ts1 ++ ts2) =
      ((runExperiment e1 ts2).1, ys ++ (runExperiment e1 ts2).2.1,
        (runExperiment e1 ts2).2.2) := by
  induction ts1 generalizing e ys with
  | nil =>
    rw [runExperiment] at h
    injection h with h1 h23
    injection h23 with h2 h3
    subst h1
    subst h2
    simp [runExperiment]
  | cons t ts ih =>
    rw [runExperiment] at h
    rw [List.cons_append, runExperiment]
    cases hstep : expNext e t with
    | mk e2 r2 =>
      cases r2 with
      | ok i =>
        rw [hstep] at h
        simp only at h ⊢
        injection h with h1 h23
        injection h23 with h2 h3
        cases ys with
        | nil => cases h2
        | cons y ys2 =>
          injection h2 with h2a h2b
          subst h2a
          have hsub : runExperiment e2 ts = (e1, ys2, none) := by
            rw [← h1, ← h2b, ← h3]
          rw [ih e2 ys2 hsub]
          simp
      | error err =>
        rw [hstep] at h
        simp only at h
        injection h with h1 h23
        injection h23 with h2 h3
        cases h3

/-- Advancing a fresh experiment with no trials at all: the experiment is
run, the empty cursor advance is caught, the state is persisted, the
experiment finishes at once and StopIteration is raised. -/
theorem expNext_nil (e : Exp) (t : Int)
    (hc : e.estatus.current_status = "pending")
    (hidx : e.trial_index = none) (hnil : e.trials = []) :
    expNext e t =
      ({ estatus :=
           doStatusUpdate (doStatusUpdate e.estatus "running" t) "finished" t
         trial_index := none
         trials := []
         saved := some { estatus := doStatusUpdate e.estatus "running" t
                         trial_index := some 0
                         trials := [] } },
        .error .stopIteration) := by
  have hni : nextIndex e = 0 := by simp [nextIndex, hidx]
  unfold expNext
  rw [set_status_eq_ok e.estatus "running" t ["running", "skipped"]
    (by rw [hc]; decide) (by simp) (by decide)]
  simp only [hc, eq_self_iff_true, true_or, if_true]
  rw [hni, finishPrevTrial_zero, hnil]
  simp only [List.getElem?_nil, esave]
  rw [if_pos (by simp)]
  rw [set_status_eq_ok (doStatusUpdate e.estatus "running" t) "finished" t
    ["finished", "timed_out", "paused"]
    (by rw [doStatusUpdate_current_status]; decide) (by simp) (by decide)]

/-- From a fresh all-pending experiment, the run over the first k + 1
advances yields trials 0, ..., k and reaches the lockstep state at cursor
k. -/
theorem runExperiment_prefix (e0 : Exp) (ts : List Int) (k : Nat)
    (hc : e0.estatus.current_status = "pending")
    (hidx : e0.trial_index = none)
    (hall : ∀ j, j < e0.trials.length → trialStatus e0 j = some "pending")
    (hk : k < e0.trials.length) (hts : k < ts.length) :
    ∃ ek, runExperiment e0 (ts.take (k + 1)) = (ek, List.range (k + 1), none)
      ∧ Iterating ek k ∧ ek.trials.length = e0.trials.length := by
  induction k with
  | zero =>
    obtain ⟨t0, ht0⟩ : ∃ t0, ts[0]? = some t0 :=
      ⟨_, List.getElem?_eq_getElem hts⟩
    have htake : ts.take 1 = [t0] := by
      rw [List.take_succ, List.take_zero, ht0]
      rfl
    obtain ⟨e1, hstep, hit, hlen⟩ := iterStep_first e0 t0 hc hidx
      (by omega) hall
    refine ⟨e1, ?_, hit, hlen⟩
    rw [htake, runExperiment, hstep]
    simp [runExperiment]
    rfl
  | succ k ih =>
    obtain ⟨ek, hrun, hit, hlen⟩ := ih (by omega) (by omega)
    obtain ⟨tk1, htk1⟩ : ∃ x, ts[k + 1]? = some x :=
      ⟨_, List.getElem?_eq_getElem hts⟩
    have htake : ts.take (k + 2) = ts.take (k + 1) ++ [tk1] := by
      rw [List.take_succ, htk1]
      rfl
    obtain ⟨e2, hstep, hit2, hlen2⟩ := iterStep_middle ek tk1 k hit (by omega)
    refine ⟨e2, ?_, hit2, by omega⟩
    rw [htake, runExperiment_append e0 _ [tk1] ek _ hrun]
    rw [runExperiment, hstep]
    simp [runExperiment, List.range_succ]

/-- C1: iterating an Experiment that is pending with a null cursor and
whose N trials are all pending yields exactly the trials 0, ..., N - 1 in
list order; after the advance that yields trial k the lockstep shape holds
at k, so every predecessor trial is finished before its successor starts
running; and the advance after the Nth yield raises StopIteration, leaving
the experiment finished, every trial finished and the cursor reset to
none. -/
theorem experiment_iteration (e0 : Exp) (ts : List Int)
    (hc : e0.estatus.current_status = "pending")
    (hidx : e0.trial_index = none)
    (hall : ∀ j, j < e0.trials.length → trialStatus e0 j = some "pending")
    (hts : ts.length = e0.trials.length + 1) :
    (∀ k, k < e0.trials.length →
      ∃ ek, runExperiment e0 (ts.take (k + 1)) =
          (ek, List.range (k + 1), none) ∧ Iterating ek k) ∧
    (∃ ef, runExperiment e0 ts =
        (ef, List.range e0.trials.length, some .stopIteration) ∧
      ef.estatus.current_status = "finished" ∧ ef.trial_index = none ∧
      ef.trials.length = e0.trials.length ∧
      ∀ j, j < ef.trials.length → trialStatus ef j = some "finished") := by
  constructor
  · intro k hk
    obtain ⟨ek, hrun, hit, -⟩ := runExperiment_prefix e0 ts k hc hidx hall hk
      (by omega)
    exact ⟨ek, hrun, hit⟩
  · cases hlen0 : e0.trials.length with
    | zero =>
      have hnil : e0.trials = [] := List.length_eq_zero.mp hlen0
      obtain ⟨t0, hts0⟩ : ∃ t0, ts = [t0] := by
        rw [List.length_eq_one.symm]
        omega
      refine ⟨{ estatus := (doStatusUpdate
                  (doStatusUpdate e0.estatus "running" t0) "finished" t0)
                trial_index := none
                trials := []
                saved := some { estatus :=
                                  (doStatusUpdate e0.estatus "running" t0)
                                trial_index := some 0
                                trials := [] } }, ?_, ?_, rfl, rfl, ?_⟩
      · rw [hts0, runExperiment, expNext_nil e0 t0 hc hidx hnil]
        simp
      · simp [doStatusUpdate_current_status]
      · intro j hj
        simp at hj
    | succ m =>
      obtain ⟨em, hrun, hit, hlenm⟩ := runExperiment_prefix e0 ts m hc hidx
        hall (by omega) (by omega)
      obtain ⟨tN, htN⟩ : ∃ x, ts.drop (m + 1) = [x] := by
        rw [List.length_eq_one.symm, List.length_drop]
        omega
      obtain ⟨ef, hstep, hfin1, hfin2, hfin3, hfin4⟩ :=
        iterStep_last em tN m hit (by omega)
      refine ⟨ef, ?_, hfin1, hfin2, by omega, hfin4⟩
      have hsplit : ts = ts.take (m + 1) ++ ts.drop (m + 1) :=
        (List.take_append_drop (m + 1) ts).symm
      nth_rewrite 1 [hsplit]
      rw [runExperiment_append e0 _ _ em _ hrun, htN]
      rw [runExperiment, hstep]
      simp [runExperiment, List.range_succ]

/-- Witness for the iteration theorem: a concrete fresh experiment with two
pending trials, driven by three advances, yields trials 0 and 1 and ends
finished with a null cursor. -/
theorem experiment_iteration_witness :
    ((freshExp initialStatus [initialStatus, initialStatus]).estatus.current_status
      = "pending") ∧
    ((freshExp initialStatus [initialStatus, initialStatus]).trial_index
      = none) ∧
    (∀ j, j < (freshExp initialStatus
        [initialStatus, initialStatus]).trials.length →
      trialStatus (freshExp initialStatus [initialStatus, initialStatus]) j =
        some "pending") ∧
    (([0, 1, 2] : List Int).length =
      (freshExp initialStatus [initialStatus, initialStatus]).trials.length
        + 1) ∧
    (∃ ef, runExperiment (freshExp initialStatus
          [initialStatus, initialStatus]) [0, 1, 2] =
        (ef, List.range (freshExp initialStatus
          [initialStatus, initialStatus]).trials.length,
          some .stopIteration) ∧
      ef.estatus.current_status = "finished" ∧ ef.trial_index = none ∧
      ef.trials.length = (freshExp initialStatus
        [initialStatus, initialStatus]).trials.length ∧
      ∀ j, j < ef.trials.length → trialStatus ef j = some "finished") :=
  ⟨by decide, rfl, by decide, by decide,
    (experiment_iteration (freshExp initialStatus
        [initialStatus, initialStatus]) [0, 1, 2]
      (by decide) rfl (by decide) (by decide)).2⟩

/-! ### Theorems about the skip and time_out overrides -/

/-- C6 counterexample: on a concrete mid-iteration experiment (running,
cursor on trial 0 which is running, trial 1 pending), skip() raises
ValueError and nothing is marked skipped, contrary to the claim that it
marks the current and remaining trials and the experiment skipped. -/
theorem skip_mid_iteration_cex :
    (expSkip midIterationExp 6).2 =
      some (.valueError "Cannot switch from running to skipped.") ∧
    (expSkip midIterationExp 6).1 = midIterationExp ∧
    ¬ (expSkip midIterationExp 6).1.estatus.current_status = "skipped" ∧
    ¬ trialStatus (expSkip midIterationExp 6).1 0 = some "skipped" := by
  decide

/-- C6 amended: on every Experiment whose status is running, skip() raises
ValueError, because running to skipped is not in the transition table, and
the experiment object is left completely unchanged, so no trial is marked
skipped and the experiment keeps iterating normally afterwards. -/
theorem skip_mid_iteration_fails (e : Exp) (t : Int)
    (hc : e.estatus.current_status = "running") :
    expSkip e t =
      (e, some (.valueError "Cannot switch from running to skipped.")) := by
  have herr : set_status e.estatus "skipped" t =
      .error (.valueError "Cannot switch from running to skipped.") := by
    unfold set_status
    rw [hc]
    rfl
  unfold expSkip
  rw [herr]

/-- Witness for the amended skip claim at the concrete mid-iteration
experiment. -/
theorem skip_mid_iteration_fails_witness :
    (midIterationExp.estatus.current_status = "running") ∧
    expSkip midIterationExp 6 =
      (midIterationExp,
        some (.valueError "Cannot switch from running to skipped.")) :=
  ⟨by decide, skip_mid_iteration_fails midIterationExp 6 (by decide)⟩

/-- Skipping a list of all-pending trials skips each of them in order and
raises nothing. -/
theorem skipAll_pending (l : List StatusState) (t : Int)
    (h : ∀ tr ∈ l, tr.current_status = "pending") :
    skipAll l t =
      (l.map (fun tr => doStatusUpdate tr "skipped" t), none) := by
  induction l with
  | nil => rfl
  | cons tr rest ih =>
    have htr : tr.current_status = "pending" := h tr (by simp)
    unfold skipAll
    rw [set_status_eq_ok tr "skipped" t ["running", "skipped"]
      (by rw [htr]; decide) (by simp) (by decide)]
    rw [ih (fun tr2 htr2 => h tr2 (by simp [htr2]))]
    rfl

/-- C5 counterexample: on a concrete mid-iteration experiment, time_out()
sets the current trial to timed_out, not to skipped as the claim states. -/
theorem time_out_current_trial_cex :
    (expTimeOut midIterationExp 6).2 = none ∧
    (expTimeOut midIterationExp 6).1.estatus.current_status = "timed_out" ∧
    trialStatus (expTimeOut midIterationExp 6).1 0 = some "timed_out" ∧
    ¬ trialStatus (expTimeOut midIterationExp 6).1 0 = some "skipped" ∧
    trialStatus (expTimeOut midIterationExp 6).1 1 = some "skipped" := by
  decide

/-- C5 amended: time_out() on a running Experiment whose cursor points at a
running trial with every remaining trial pending sets the experiment to
timed_out, sets the current trial to timed_out, forces every remaining
trial to skipped, leaves the trials before the cursor untouched, and
persists the result. -/
theorem time_out_cascades (e : Exp) (t : Int) (i : Nat) (cur : StatusState)
    (hc : e.estatus.current_status = "running")
    (hidx : e.trial_index = some i)
    (hg : e.trials[i]? = some cur) (hr : cur.current_status = "running")
    (hpend : ∀ j, i < j → j < e.trials.length →
      trialStatus e j = some "pending") :
    ∃ ef, expTimeOut e t = (ef, none) ∧
      ef.estatus.current_status = "timed_out" ∧
      trialStatus ef i = some "timed_out" ∧
      (∀ j, i < j → j < ef.trials.length →
        trialStatus ef j = some "skipped") ∧
      (∀ j, j < i → ef.trials[j]? = e.trials[j]?) ∧
      ef.trials.length = e.trials.length ∧
      ef.saved = some ef.toExpCore := by
  have hilen : i < e.trials.length := (List.getElem?_eq_some.mp hg).1
  have hok1 : set_status e.estatus "timed_out" t =
      .ok (doStatusUpdate e.estatus "timed_out" t) :=
    set_status_eq_ok e.estatus "timed_out" t
      ["finished", "timed_out", "paused"] (by rw [hc]; decide) (by simp)
      (by decide)
  have hok2 : set_status cur "timed_out" t =
      .ok (doStatusUpdate cur "timed_out" t) :=
    set_status_eq_ok cur "timed_out" t ["finished", "timed_out", "paused"]
      (by rw [hr]; decide) (by simp) (by decide)
  have hpend2 : ∀ tr ∈ (e.trials.set i
      (doStatusUpdate cur "timed_out" t)).drop (i + 1),
      tr.current_status = "pending" := by
    intro tr htr
    obtain ⟨k, hk⟩ := List.getElem?_of_mem htr
    rw [List.getElem?_drop] at hk
    rw [List.getElem?_set_ne (by omega)] at hk
    have hklen : i + 1 + k < e.trials.length :=
      (List.getElem?_eq_some.mp hk).1
    have h2 := hpend (i + 1 + k) (by omega) hklen
    rw [trialStatus, hk] at h2
    simpa using h2
  have hskip := skipAll_pending ((e.trials.set i
    (doStatusUpdate cur "timed_out" t)).drop (i + 1)) t hpend2
  unfold expTimeOut
  rw [hok1]
  simp only [hidx, hg]
  rw [hok2]
  simp only [hskip, esave]
  refine ⟨_, rfl, ?_, ?_, ?_, ?_, ?_, rfl⟩
  · simp [doStatusUpdate_current_status]
  · simp only [trialStatus]
    rw [List.getElem?_append_left (by
      rw [List.length_take, List.length_set]
      omega)]
    rw [List.getElem?_take_of_lt (by omega), List.getElem?_set_self (by omega)]
    simp [doStatusUpdate_current_status]
  · intro j hj hjlen
    simp only [trialStatus] at hjlen ⊢
    simp only [List.length_append, List.length_take, List.length_map,
      List.length_drop, List.length_set] at hjlen
    rw [List.getElem?_append_right (by
      rw [List.length_take, List.length_set]
      omega)]
    rw [List.length_take, List.length_set]
    rw [List.getElem?_map]
    have hmin : min (i + 1) e.trials.length = i + 1 := by omega
    rw [hmin]
    rw [List.getElem?_drop]
    have harith : i + 1 + (j - (i + 1)) = j := by omega
    rw [harith]
    rw [List.getElem?_set_ne (by omega)]
    have h2 := hpend j (by omega) (by omega)
    rw [trialStatus] at h2
    obtain ⟨trj, htrj⟩ : ∃ x, e.trials[j]? = some x := by
      cases hx : e.trials[j]? with
      | none => rw [hx] at h2; cases h2
      | some x => exact ⟨x, rfl⟩
    rw [htrj]
    simp [doStatusUpdate_current_status]
  · intro j hj
    rw [List.getElem?_append_left (by
      rw [List.length_take, List.length_set]
      omega)]
    rw [List.getElem?_take_of_lt (by omega), List.getElem?_set_ne (by omega)]
  · simp only [List.length_append, List.length_take, List.length_map,
      List.length_drop, List.length_set]
    omega

/-- Witness for the amended time_out claim at the concrete mid-iteration
experiment. -/
theorem time_out_cascades_witness :
    (midIterationExp.estatus.current_status = "running") ∧
    (midIterationExp.trial_index = some 0) ∧
    (midIterationExp.trials[0]? = some runningStatus) ∧
    (runningStatus.current_status = "running") ∧
    (∀ j, 0 < j → j < midIterationExp.trials.length →
      trialStatus midIterationExp j = some "pending") ∧
    (∃ ef, expTimeOut midIterationExp 6 = (ef, none) ∧
      ef.estatus.current_status = "timed_out" ∧
      trialStatus ef 0 = some "timed_out" ∧
      (∀ j, 0 < j → j < ef.trials.length →
        trialStatus ef j = some "skipped") ∧
      (∀ j, j < 0 → ef.trials[j]? = midIterationExp.trials[j]?) ∧
      ef.trials.length = midIterationExp.trials.length ∧
      ef.saved = some ef.toExpCore) :=
  ⟨by decide, rfl, by decide, by decide,
    by
      intro j h1 h2
      simp only [midIterationExp, List.length_cons, List.length_nil] at h2
      interval_cases j
      decide,
    time_out_cascades midIterationExp 6 0 runningStatus (by decide) rfl
      (by decide) (by decide)
      (by
        intro j h1 h2
        simp only [midIterationExp, List.length_cons, List.length_nil] at h2
        interval_cases j
        decide)⟩

/-! ### Theorems about ID validation -/

/-- C9: is_valid_id accepts a run of allowed characters followed by one
trailing newline, such as abc with a newline, although that string
contains a character outside the allowed class: in the Python re module
the dollar anchor also matches just before a final newline.  The claim and
the docstring of the function say any such string is invalid. -/
theorem is_valid_id_trailing_newline :
    is_valid_id "abc\n" = true ∧ "abc\n".toList.all idChar = false ∧
    is_valid_id "abc" = true ∧ is_valid_id "ab" = false ∧
    is_valid_id "a b" = false ∧ is_valid_id "a-b_9Z" = true := by
  decide

/-! ### Theorems about construction, existence checks and persistence -/

/-- The path just written exists afterwards. -/
theorem mem_fsWrite (fs : List String) (p : String) : p ∈ fsWrite fs p := by
  unfold fsWrite
  split
  · assumption
  · simp

/-- Writing one path keeps every other path unchanged. -/
theorem mem_fsWrite_iff (fs : List String) (p q : String) (h : q ≠ p) :
    q ∈ fsWrite fs p ↔ q ∈ fs := by
  unfold fsWrite
  split
  · rfl
  · simp [h]

/-- An experiment default path never equals a participant default path:
they live in different directories. -/
theorem experimentPath_ne_participantPath (pid eid pid2 : String)
    (c c2 : Bool) :
    experimentDefaultPath pid eid c ≠ participantDefaultPath pid2 c2 := by
  intro h
  have hd : (experimentDefaultPath pid eid c).data.head? =
      (participantDefaultPath pid2 c2).data.head? := by rw [h]
  have h1 : (experimentDefaultPath pid eid c).data.head? = some 'E' := rfl
  have h2 : (participantDefaultPath pid2 c2).data.head? = some 'P' := rfl
  rw [h1, h2] at hd
  cases hd

/-- C4 counterexample: a brand-new compressed participant record is
constructed successfully although a file exists at the uncompressed
variant of its default path.  The existence check tests the resolved path
and the resolved path with .gz appended, so with compression on the
uncompressed variant is never among the checked paths, contrary to the
claim that either variant blocks construction. -/
theorem construct_exists_check_cex :
    participantDefaultPath "abc" false = "Participants/abc.json" ∧
    participantConstructionOk
      (constructParticipant ["Participants/abc.json"]
        (freshParticipant "abc" true) 3) = true := by
  decide

/-- Writing a path keeps every existing path. -/
theorem mem_fsWrite_mono (fs : List String) (p q : String) (h : q ∈ fs) :
    q ∈ fsWrite fs p := by
  unfold fsWrite
  split
  · exact h
  · simp [h]

/-- C4 amended: construction of a brand-new Participant or Experiment
fails with the entity-flavored ExistsError, leaving the filesystem
unchanged, exactly when a file exists at the record resolved default path
(per its own compression flag) or at that path with .gz appended; when
neither of those two paths exists, the record is written to the resolved
path immediately.  With compression off the two checked paths are the
uncompressed and compressed variants; with compression on the uncompressed
variant is not checked. -/
theorem construct_existence_check (fs : List String) (pid eid : String)
    (compression : Bool) (tnow : Int) :
    ((participantDefaultPath pid compression ∈ fs ∨
        (participantDefaultPath pid compression ++ ".gz") ∈ fs) →
      constructParticipant fs (freshParticipant pid compression) tnow =
        (fs, .error .participantExistsError)) ∧
    ((participantDefaultPath pid compression ∉ fs ∧
        (participantDefaultPath pid compression ++ ".gz") ∉ fs) →
      participantDefaultPath pid compression ∈
        (constructParticipant fs (freshParticipant pid compression)
          tnow).1) ∧
    ((experimentDefaultPath pid eid compression ∈ fs ∨
        (experimentDefaultPath pid eid compression ++ ".gz") ∈ fs) →
      constructExperiment fs (freshExperiment pid eid compression) tnow =
        (fs, .error .experimentExistsError)) ∧
    ((experimentDefaultPath pid eid compression ∉ fs ∧
        (experimentDefaultPath pid eid compression ++ ".gz") ∉ fs ∧
        participantDefaultPath pid false ∈ fs) →
      experimentDefaultPath pid eid compression ∈
        (constructExperiment fs (freshExperiment pid eid compression)
          tnow).1) := by
  refine ⟨?_, ?_, ?_, ?_⟩
  · intro hmem
    unfold constructParticipant
    simp only [identCheck, freshParticipant, Option.getD_none, ne_eq,
      not_true_eq_false, if_false, eq_self_iff_true, if_true]
    rw [if_pos hmem]
  · intro ⟨h1, h2⟩
    unfold constructParticipant
    simp only [identCheck, freshParticipant, Option.getD_none, ne_eq,
      not_true_eq_false, if_false, eq_self_iff_true, if_true]
    rw [if_neg (by simp [h1, h2])]
    simp only []
    split
    · exact mem_fsWrite fs _
    · exact mem_fsWrite fs _
  · intro hmem
    unfold constructExperiment
    simp only [identCheck, freshExperiment, Option.getD_none, ne_eq,
      not_true_eq_false, if_false, eq_self_iff_true, if_true]
    rw [if_pos hmem]
  · intro ⟨h1, h2, h3⟩
    unfold constructExperiment
    simp only [identCheck, freshExperiment, Option.getD_none, ne_eq,
      not_true_eq_false, if_false, eq_self_iff_true, if_true]
    rw [if_neg (by simp [h1, h2])]
    simp only []
    rw [if_neg (by
      intro hcon
      exact hcon.1 (mem_fsWrite_mono fs _ _ h3))]
    rw [if_neg (by simp [initialStatus])]
    simp only []
    split
    · exact mem_fsWrite fs _
    · split
      · exact mem_fsWrite fs _
      · exact mem_fsWrite fs _

/-- Witness for the amended existence-check claim at concrete inputs: a
fresh uncompressed participant and experiment over a filesystem already
holding both files, and over one missing them. -/
theorem construct_existence_check_witness :
    (participantDefaultPath "abc" false ∈
        [participantDefaultPath "abc" false] ∨
      (participantDefaultPath "abc" false ++ ".gz") ∈
        [participantDefaultPath "abc" false]) ∧
    constructParticipant [participantDefaultPath "abc" false]
        (freshParticipant "abc" false) 3 =
      ([participantDefaultPath "abc" false], .error .participantExistsError) ∧
    (participantDefaultPath "abc" false ∉ ([] : List String) ∧
      (participantDefaultPath "abc" false ++ ".gz") ∉ ([] : List String)) ∧
    participantDefaultPath "abc" false ∈
      (constructParticipant [] (freshParticipant "abc" false) 3).1 :=
  ⟨by decide,
    (construct_existence_check [participantDefaultPath "abc" false]
      "abc" "exp" false 3).1 (by decide),
    by decide,
    (construct_existence_check [] "abc" "exp" false 3).2.1 (by decide)⟩

/-- C8: constructing a brand-new Experiment whose referenced participant
has no file at either variant of the participant default path fails with
ParticipantDoesNotExistError, and the experiment file the construction had
just written is deleted again: the filesystem ends exactly as it began. -/
theorem construct_experiment_missing_participant (fs : List String)
    (pid eid : String) (compression : Bool) (tnow : Int)
    (hp1 : participantDefaultPath pid false ∉ fs)
    (hp2 : participantDefaultPath pid true ∉ fs)
    (he1 : experimentDefaultPath pid eid compression ∉ fs)
    (he2 : (experimentDefaultPath pid eid compression ++ ".gz") ∉ fs) :
    constructExperiment fs (freshExperiment pid eid compression) tnow =
      (fs, .error .participantDoesNotExistError) := by
  unfold constructExperiment
  simp only [identCheck, freshExperiment, Option.getD_none, ne_eq,
    not_true_eq_false, if_false, eq_self_iff_true, if_true]
  rw [if_neg (by simp [he1, he2])]
  have hfs2 : fsWrite fs (experimentDefaultPath pid eid compression) =
      fs ++ [experimentDefaultPath pid eid compression] := by
    unfold fsWrite
    rw [if_neg he1]
  rw [hfs2]
  simp only []
  rw [if_pos (by
    constructor
    · simp only [List.mem_append, List.mem_singleton]
      rintro (h | h)
      · exact hp1 h
      · exact experimentPath_ne_participantPath pid eid pid compression
          false h.symm
    · simp only [List.mem_append, List.mem_singleton]
      rintro (h | h)
      · exact hp2 h
      · exact experimentPath_ne_participantPath pid eid pid compression
          true h.symm)]
  rw [if_pos (by simp)]
  rw [List.erase_append_right _ he1]
  simp

/-- Witness for the missing-participant claim at concrete inputs. -/
theorem construct_experiment_missing_participant_witness :
    (participantDefaultPath "abc" false ∉ ([] : List String)) ∧
    (participantDefaultPath "abc" true ∉ ([] : List String)) ∧
    (experimentDefaultPath "abc" "exp" false ∉ ([] : List String)) ∧
    ((experimentDefaultPath "abc" "exp" false ++ ".gz") ∉
      ([] : List String)) ∧
    constructExperiment [] (freshExperiment "abc" "exp" false) 3 =
      ([], .error .participantDoesNotExistError) :=
  ⟨by decide, by decide, by decide, by decide,
    construct_experiment_missing_participant [] "abc" "exp" false 3
      (by decide) (by decide) (by decide) (by decide)⟩

/-- C10: constructing a brand-new Participant with an invalid id whose
default path is free raises ValueError only after the record has been
written to its default path: the file remains on disk after the error, and
a second construction attempt under the same id then fails with the
participant ExistsError instead. -/
theorem invalid_id_leaves_orphan_file (fs : List String) (pid : String)
    (compression : Bool) (tnow tnow2 : Int)
    (hinv : is_valid_id pid = false)
    (h1 : participantDefaultPath pid compression ∉ fs)
    (h2 : (participantDefaultPath pid compression ++ ".gz") ∉ fs) :
    constructParticipant fs (freshParticipant pid compression) tnow =
      (fs ++ [participantDefaultPath pid compression],
        .error (.valueError ("Invalid participant ID: " ++ pid))) ∧
    constructParticipant
        (fs ++ [participantDefaultPath pid compression])
        (freshParticipant pid compression) tnow2 =
      (fs ++ [participantDefaultPath pid compression],
        .error .participantExistsError) := by
  constructor
  · unfold constructParticipant
    simp only [identCheck, freshParticipant, Option.getD_none, ne_eq,
      not_true_eq_false, if_false, eq_self_iff_true, if_true]
    rw [if_neg (by simp [h1, h2])]
    have hfs2 : fsWrite fs (participantDefaultPath pid compression) =
        fs ++ [participantDefaultPath pid compression] := by
      unfold fsWrite
      rw [if_neg h1]
    rw [hfs2]
    simp only []
    rw [if_pos (by simp [hinv])]
  · unfold constructParticipant
    simp only [identCheck, freshParticipant, Option.getD_none, ne_eq,
      not_true_eq_false, if_false, eq_self_iff_true, if_true]
    rw [if_pos (Or.inl (by simp))]

/-- Witness for the orphan-file claim at a concrete invalid id. -/
theorem invalid_id_leaves_orphan_file_witness :
    (is_valid_id "a!" = false) ∧
    (participantDefaultPath "a!" false ∉ ([] : List String)) ∧
    ((participantDefaultPath "a!" false ++ ".gz") ∉ ([] : List String)) ∧
    (constructParticipant [] (freshParticipant "a!" false) 3 =
      ([participantDefaultPath "a!" false],
        .error (.valueError ("Invalid participant ID: " ++ "a!"))) ∧
    constructParticipant [participantDefaultPath "a!" false]
        (freshParticipant "a!" false) 4 =
      ([participantDefaultPath "a!" false],
        .error .participantExistsError)) :=
  ⟨by decide, by decide, by decide,
    invalid_id_leaves_orphan_file [] "a!" false 3 4 (by decide) (by decide)
      (by decide)⟩

/-- C7 counterexample: deserialising the document of an experiment that
was saved while running does not preserve its status: the construction
chain pauses it (and its current trial), so the round trip turns running
into paused, contrary to the claim that every field except the last-saved
timestamp survives the round trip. -/
theorem round_trip_running_cex :
    runningExperimentDoc.estatus.current_status = "running" ∧
    constructedStatus (experimentFromJson runningExperimentFs
      (experimentToJson runningExperimentDoc) 9) = some "paused" := by
  decide

/-- C7 amended: for a stored Participant document with a valid id, and for
a stored Experiment document with valid ids whose participant file exists
and whose saved status is not running, deserialising the serialised
document reproduces the record exactly, every field included (the
last-saved timestamp itself is only advanced by save, which stamps the
current time, strictly later than the previous stamp whenever the clock
has advanced). -/
theorem serialisation_round_trip (fs : List String) (tnow t1 t2 : Int)
    (p : ParticipantRec) (r : ExperimentRec)
    (hpc : p.class_name = some "Participant")
    (hpp : p.path =
      some (participantDefaultPath p.participant_id p.compression))
    (hpt : p.datetime_last_saved = some t1)
    (hpid : is_valid_id p.participant_id = true)
    (hrc : r.class_name = some "Experiment")
    (hrp : r.path = some (experimentDefaultPath r.participant_id
      r.experiment_id r.compression))
    (hrt : r.datetime_last_saved ≠ none)
    (hrun : r.estatus.current_status ≠ "running")
    (hpart : participantDefaultPath r.participant_id false ∈ fs)
    (hrid1 : is_valid_id r.participant_id = true)
    (hrid2 : is_valid_id r.experiment_id = true)
    (ht : t1 < t2) :
    participantFromJson fs (participantToJson p) tnow = (fs, .ok p) ∧
    experimentFromJson fs (experimentToJson r) tnow = (fs, .ok r) ∧
    ∃ t3, (saveParticipant fs p t2).2.datetime_last_saved = some t3 ∧
      t1 < t3 := by
  refine ⟨?_, ?_, t2, ?_, ht⟩
  · have hpeq : ({ p with
        class_name := some "Participant"
        path := some (participantDefaultPath p.participant_id
          p.compression) } : ParticipantRec) = p := by
      obtain ⟨a1, a2, a3, a4, a5, a6, a7, a8, a9, a10, a11, a12, a13, a14,
        a15, a16⟩ := p
      simp only at hpc hpp ⊢
      rw [hpc, hpp]
    unfold participantFromJson participantToJson constructParticipant
    simp only [identCheck, hpc, Option.getD_some, ne_eq, not_true_eq_false,
      if_false]
    rw [if_neg (by rw [hpt]; simp)]
    simp only [hpid, not_true_eq_false, if_false]
    rw [hpeq]
  · have hreq : ({ r with
        class_name := some "Experiment"
        path := some (experimentDefaultPath r.participant_id
          r.experiment_id r.compression) } : ExperimentRec) = r := by
      obtain ⟨b1, b2, b3, b4, b5, b6, b7, b8, b9, b10, b11, b12, b13⟩ := r
      simp only at hrc hrp ⊢
      rw [hrc, hrp]
    unfold experimentFromJson experimentToJson constructExperiment
    simp only [identCheck, hrc, Option.getD_some, ne_eq, not_true_eq_false,
      if_false]
    rw [if_neg (by
      intro hnone
      rw [hnone] at hrt
      simp at hrt)]
    simp only []
    rw [if_neg (by
      intro hcon
      exact hcon.1 hpart)]
    rw [if_neg hrun]
    simp only [hrid1, hrid2, not_true_eq_false, if_false]
    rw [hreq]
  · unfold saveParticipant
    simp only []
    rw [hpp]

/-- Witness for the round-trip claim on concrete stored documents over a
filesystem holding the participant file. -/
theorem serialisation_round_trip_witness :
    (storedParticipantDoc.class_name = some "Participant") ∧
    (storedExperimentDoc.class_name = some "Experiment") ∧
    (storedExperimentDoc.estatus.current_status ≠ "running") ∧
    (participantDefaultPath storedExperimentDoc.participant_id false ∈
      runningExperimentFs) ∧
    (participantFromJson runningExperimentFs
        (participantToJson storedParticipantDoc) 9 =
      (runningExperimentFs, .ok storedParticipantDoc) ∧
    experimentFromJson runningExperimentFs
        (experimentToJson storedExperimentDoc) 9 =
      (runningExperimentFs, .ok storedExperimentDoc) ∧
    ∃ t3, (saveParticipant runningExperimentFs storedParticipantDoc
        6).2.datetime_last_saved = some t3 ∧ (5 : Int) < t3) :=
  ⟨by decide, by decide, by decide, by decide,
    serialisation_round_trip runningExperimentFs 9 5 6 storedParticipantDoc
      storedExperimentDoc (by decide) (by decide) (by decide) (by decide)
      (by decide) (by decide) (by decide) (by decide) (by decide)
      (by decide) (by decide) (by decide)⟩

end Expflow
